import Mathlib

/-!
Verification development for the MAXAI personal-assistant orchestrator.

The definitions below are a shallow embedding of the Python source:
  * `src/memory.py`        — the Memory Store (`MemoryStore`)
  * `src/tool_executor.py` — the Capability Gateway (`ToolExecutor`)
  * `src/agent.py`         — the Reasoning Loop (`MAXAgent`)

Python dictionaries produced by `json.loads` are modelled by the inductive
type `PyJson`; Python exceptions are modelled by `Except PyExc`; wall-clock
timestamps and durations are modelled by `Nat` parameters supplied by the
caller.  Argument values handed to capabilities are modelled as strings.
-/

namespace MAXAI

/-- Curly braces, written via code points to keep string literals plain. -/
def lbrace : Char := Char.ofNat 123

def rbrace : Char := Char.ofNat 125

def squote : Char := Char.ofNat 39

/-- Python exceptions that the embedded code can raise or catch. -/
inductive PyExc where
  | typeError
  | attributeError
  | jsonDecodeError
deriving Repr, DecidableEq

/-- Values produced by Python `json.loads` (floats do not occur in the
    payloads the agent exchanges, so numbers are modelled as integers). -/
inductive PyJson where
  | null : PyJson
  | bool : Bool → PyJson
  | int : Int → PyJson
  | str : String → PyJson
  | arr : List PyJson → PyJson
  | obj : List (String × PyJson) → PyJson
deriving Repr, Inhabited

/-- Python truthiness (`if not x`) for JSON values. -/
def pyTruthy : PyJson → Bool
  | PyJson.null => false
  | PyJson.bool b => b
  | PyJson.int n => n != 0
  | PyJson.str s => s != ""
  | PyJson.arr xs => !xs.isEmpty
  | PyJson.obj fs => !fs.isEmpty

/-- Python `dict.get(key, default)`. -/
def dictGetD (fs : List (String × PyJson)) (key : String) (dflt : PyJson) : PyJson :=
  match fs.find? (fun kv => kv.1 == key) with
  | some kv => kv.2
  | none => dflt

/-! ### A small JSON parser, modelling Python `json.loads` on the payloads
    the agent exchanges.  Parsing failure models `json.JSONDecodeError`. -/

def skipWs : List Char → List Char
  | [] => []
  | c :: rest =>
      if c = ' ' || c = '\n' || c = '\t' || c = '\r' then skipWs rest else c :: rest

/-- Consume an exact literal such as `rue` after `t`. -/
def chopLit : List Char → List Char → Option (List Char)
  | [], rest => some rest
  | _ :: _, [] => none
  | a :: ps, b :: rest => if a = b then chopLit ps rest else none

/-- Parse the remainder of a JSON string literal (the opening quote has
    already been consumed), handling the basic escapes. -/
def parseStrBody : List Char → String → Option (String × List Char)
  | [], _ => none
  | c :: rest, acc =>
      if c = '\\' then
        match rest with
        | [] => none
        | e :: rest2 =>
            let esc : Option Char :=
              if e = '"' then some '"'
              else if e = '\\' then some '\\'
              else if e = '/' then some '/'
              else if e = 'n' then some '\n'
              else if e = 't' then some '\t'
              else if e = 'r' then some '\r'
              else if e = 'b' then some (Char.ofNat 8)
              else if e = 'f' then some (Char.ofNat 12)
              else none
            match esc with
            | some ch => parseStrBody rest2 (acc.push ch)
            | none => none
      else if c = '"' then some (acc, rest)
      else parseStrBody rest (acc.push c)

def spanDigits : List Char → List Char × List Char
  | [] => ([], [])
  | c :: rest =>
      if c.isDigit then
        let p := spanDigits rest
        (c :: p.1, p.2)
      else ([], c :: rest)

def digitsToNat (ds : List Char) : Nat :=
  ds.foldl (fun n c => n * 10 + (c.toNat - 48)) 0

mutual

def parseVal : Nat → List Char → Option (PyJson × List Char)
  | 0, _ => none
  | Nat.succ fuel, cs =>
      match skipWs cs with
      | [] => none
      | c :: rest =>
          if c = '"' then
            (parseStrBody rest "").map (fun p => (PyJson.str p.1, p.2))
          else if c = '[' then
            match skipWs rest with
            | ']' :: r => some (PyJson.arr [], r)
            | rest2 => (parseItems fuel rest2).map (fun p => (PyJson.arr p.1, p.2))
          else if c = lbrace then
            match skipWs rest with
            | [] => none
            | r :: rr =>
                if r = rbrace then some (PyJson.obj [], rr)
                else (parseFields fuel (r :: rr)).map (fun p => (PyJson.obj p.1, p.2))
          else if c = 't' then
            (chopLit ['r', 'u', 'e'] rest).map (fun r => (PyJson.bool true, r))
          else if c = 'f' then
            (chopLit ['a', 'l', 's', 'e'] rest).map (fun r => (PyJson.bool false, r))
          else if c = 'n' then
            (chopLit ['u', 'l', 'l'] rest).map (fun r => (PyJson.null, r))
          else if c = '-' then
            match spanDigits rest with
            | ([], _) => none
            | (ds, r) => some (PyJson.int (-(digitsToNat ds : Int)), r)
          else if c.isDigit then
            match spanDigits (c :: rest) with
            | (ds, r) => some (PyJson.int (digitsToNat ds), r)
          else none

def parseItems : Nat → List Char → Option (List PyJson × List Char)
  | 0, _ => none
  | Nat.succ fuel, cs =>
      match parseVal fuel cs with
      | none => none
      | some (v, rest) =>
          match skipWs rest with
          | ',' :: r => (parseItems fuel r).map (fun p => (v :: p.1, p.2))
          | ']' :: r => some ([v], r)
          | _ => none

def parseFields : Nat → List Char → Option (List (String × PyJson) × List Char)
  | 0, _ => none
  | Nat.succ fuel, cs =>
      match skipWs cs with
      | [] => none
      | c :: rest =>
          if c = '"' then
            match parseStrBody rest "" with
            | none => none
            | some (k, rest2) =>
                match skipWs rest2 with
                | ':' :: r =>
                    match parseVal fuel r with
                    | none => none
                    | some (v, rest3) =>
                        match skipWs rest3 with
                        | [] => none
                        | c2 :: r2 =>
                            if c2 = ',' then
                              (parseFields fuel r2).map (fun p => ((k, v) :: p.1, p.2))
                            else if c2 = rbrace then some ([(k, v)], r2)
                            else none
                | _ => none
          else none

end

/-- Model of `json.loads` on a string: the whole input must parse as one value. -/
def jsonParse (s : String) : Option PyJson :=
  match parseVal (2 * s.length + 2) s.toList with
  | none => none
  | some (v, rest) => if skipWs rest = [] then some v else none

/-- Model of `json.loads` on an optional value: Python raises `TypeError` when the
    argument is `None` (it must be `str`, `bytes` or `bytearray`), and
    `json.JSONDecodeError` when the string does not parse. -/
def jsonLoads : Option String → Except PyExc PyJson
  | none => Except.error PyExc.typeError
  | some s =>
      match jsonParse s with
      | some v => Except.ok v
      | none => Except.error PyExc.jsonDecodeError

/-- Embedding of `MAXAgent._extract_tool_calls` (src/agent.py lines 272–278):

    try:
        parsed = json.loads(raw_response)
        return parsed.get("tool_calls", [])
    except (json.JSONDecodeError, AttributeError):
        return []

    `parsed.get` on a non-dict raises `AttributeError`, which is caught;
    `json.loads(None)` raises `TypeError`, which is NOT caught. -/
def extract_tool_calls (raw : Option String) : Except PyExc PyJson :=
  match jsonLoads raw with
  | Except.ok (PyJson.obj fs) => Except.ok (dictGetD fs "tool_calls" (PyJson.arr []))
  | Except.ok _ => Except.ok (PyJson.arr [])
  | Except.error PyExc.jsonDecodeError => Except.ok (PyJson.arr [])
  | Except.error e => Except.error e

/-! ### Memory Store (src/memory.py)

The `memories` table (together with its parallel `memories_fts` index, which
`store` and `delete` keep consistent with it) is modelled as a list of rows
in insertion order.  The FTS5 `MATCH` operator and the engine's relevance
`rank` are external to the repository (SQLite), so `search` is parameterised
over a match predicate and a rank function; `ORDER BY` is modelled by a
stable insertion sort. -/

/-- Python `str.strip()` over the underlying characters (the source guards
    the fallback with `len(query.strip()) < 3`). -/
def isPySpace (c : Char) : Bool :=
  c = ' ' || c = '\n' || c = '\t' || c = '\r' || c = Char.ofNat 11 || c = Char.ofNat 12

def pyStrip (s : String) : String :=
  String.mk (((s.toList.dropWhile isPySpace).reverse.dropWhile isPySpace).reverse)

structure Memory where
  id : Nat
  content : String
  user_id : String
  tags : List String
  created_at : Nat
  accessed_at : Nat
  access_count : Nat
deriving Repr, DecidableEq

/-- Stable insertion into a sorted list (models SQL `ORDER BY`). -/
def insertBy (le : α → α → Bool) (a : α) : List α → List α
  | [] => [a]
  | b :: bs => if le a b then a :: b :: bs else b :: insertBy le a bs

/-- Stable sort (models SQL `ORDER BY`). -/
def sortBy (le : α → α → Bool) : List α → List α
  | [] => []
  | a :: as => insertBy le a (sortBy le as)

/-- The row update performed by `MemoryStore._touch` (lines 172–179):
    `UPDATE memories SET accessed_at = ?, access_count = access_count + 1
     WHERE id = ?`. -/
def touchRec (now : Nat) (r : Memory) : Memory :=
  { r with accessed_at := now, access_count := r.access_count + 1 }

/-- One `_touch(memory_id)` call applied to the whole table. -/
def touchOne (now : Nat) (i : Nat) (db : List Memory) : List Memory :=
  db.map (fun r => if r.id == i then touchRec now r else r)

/-- The `for m in memories: await self._touch(m.id)` loop in `search`. -/
def touchAll (now : Nat) : List Memory → List Memory → List Memory
  | [], db => db
  | m :: rest, db => touchAll now rest (touchOne now m.id db)

/-- Embedding of `MemoryStore._get_recent` (lines 140–152):
    `SELECT ... WHERE user_id = ? ORDER BY accessed_at DESC LIMIT ?`. -/
def get_recent (db : List Memory) (user_id : String) (limit : Nat) : List Memory :=
  ((sortBy (fun a b => decide (b.accessed_at ≤ a.accessed_at))
      (db.filter (fun m => m.user_id == user_id))).take limit)

/-- Rows produced by the FTS query of `MemoryStore.search` (lines 113–125):
    `WHERE memories_fts MATCH ? AND m.user_id = ? ORDER BY rank LIMIT ?`. -/
def searchRows (ftsMatch : String → String → Bool) (rank : Memory → Nat)
    (db : List Memory) (query : String) (user_id : String) (limit : Nat) :
    List Memory :=
  ((sortBy (fun a b => decide (rank a ≤ rank b))
      (db.filter (fun m => ftsMatch query m.content && m.user_id == user_id))).take limit)

/-- The `memories` list after the tag filter of lines 127–132 (`if tags:`
    skips the filter when the argument is `None` or empty). -/
def searchTagged (ftsMatch : String → String → Bool) (rank : Memory → Nat)
    (db : List Memory) (query : String) (user_id : String) (limit : Nat)
    (tags : List String) : List Memory :=
  if tags.isEmpty then searchRows ftsMatch rank db query user_id limit
  else (searchRows ftsMatch rank db query user_id limit).filter
    (fun m => tags.any (fun t => m.tags.contains t))

/-- Embedding of `MemoryStore.search` (lines 98–138).  Returns the list
    handed back to the caller together with the table state after the call
    (the access-stat updates of `_touch` land in the table, not in the
    returned dataclasses).  Source order: short-query recency fallback;
    otherwise FTS query, then tag filter, then `_touch` on each remaining
    record. -/
def search (ftsMatch : String → String → Bool) (rank : Memory → Nat)
    (db : List Memory) (now : Nat) (query : String) (user_id : String)
    (limit : Nat) (tags : List String) : List Memory × List Memory :=
  if (pyStrip query).length < 3 then
    (get_recent db user_id limit, db)
  else
    (searchTagged ftsMatch rank db query user_id limit tags,
     touchAll now (searchTagged ftsMatch rank db query user_id limit tags) db)

/-- Embedding of `MemoryStore.get_all` (lines 160–170):
    `SELECT ... WHERE user_id = ? ORDER BY created_at DESC`. -/
def get_all (db : List Memory) (user_id : String) : List Memory :=
  sortBy (fun a b => decide (b.created_at ≤ a.created_at))
    (db.filter (fun m => m.user_id == user_id))

/-! ### Capability Gateway (src/tool_executor.py)

Capability implementations are asynchronous Python callables that return a
value or raise; they are modelled as functions into `Except String String`
(error message or stringified result).  Argument values are modelled as
strings.  Wall-clock timestamps and durations are `Nat` parameters. -/

/-- One entry of `ToolExecutor.audit_log`. -/
structure AuditEntry where
  tool : String
  arguments : List (String × String)
  user_id : String
  success : Bool
  error : Option String
  duration_ms : Nat
  timestamp : Nat
deriving Repr, DecidableEq

/-- The result dict returned by `ToolExecutor.execute`.  `none` in
    `duration_ms` / `cancelled` models the key being absent from the dict
    (the cancellation dict carries no `duration_ms`; only it carries
    `cancelled`). -/
structure ToolResult where
  success : Bool
  result : Option String
  error : Option String
  tool_name : String
  duration_ms : Option Nat
  cancelled : Option Bool
deriving Repr, DecidableEq

/-- State of the `ToolExecutor`: the registry's `tools` mapping and per-tool
    `confirm_required` metadata flags, the two confirmation fields, and the
    audit log. -/
structure ToolExecutor where
  tools : List (String × (List (String × String) → Except String String))
  confirm_required : List String
  confirm_before_action : Bool
  confirm_callback : Option (String → Bool)
  audit_log : List AuditEntry

/-- Embedding of `ToolRegistry.requires_confirmation` (src/tool_registry.py lines
    106–109): look up the tool's `confirm_required` metadata flag. -/
def requires_confirmation (ex : ToolExecutor) (tool_name : String) : Bool :=
  ex.confirm_required.contains tool_name

/-- Lookup `self.registry.tools.get(tool_name)`. -/
def lookupTool (ex : ToolExecutor) (tool_name : String) :
    Option (List (String × String) → Except String String) :=
  match ex.tools.find? (fun kv => kv.1 == tool_name) with
  | some kv => some kv.2
  | none => none

/-- Python `repr` of a string value. -/
def pyStrRepr (v : String) : String :=
  String.singleton squote ++
    ((v.replace "\\" "\\\\").replace (String.singleton squote)
      ("\\" ++ String.singleton squote)) ++
    String.singleton squote

/-- The confirmation prompt built in `_request_confirmation` (line 119–120):
    `f"⚠️ MAX wants to run: **{tool_name}({args_str})\nConfirm? (yes/no)"`
    with `args_str = ", ".join(f"{k}={repr(v)[:60]}")`. -/
def confirmPrompt (tool_name : String) (arguments : List (String × String)) : String :=
  let args_str :=
    String.intercalate ", "
      (arguments.map (fun kv => kv.1 ++ "=" ++ ((pyStrRepr kv.2).take 60)))
  "⚠️ MAX wants to run: **" ++ tool_name ++ "**(" ++ args_str ++
    ")\nConfirm? (yes/no)"

/-- Embedding of `ToolExecutor._request_confirmation` (lines 112–126): use the callback
    when one is wired; otherwise deny by default (returns `False`). -/
def request_confirmation (ex : ToolExecutor) (tool_name : String)
    (arguments : List (String × String)) : Bool :=
  match ex.confirm_callback with
  | some cb => cb (confirmPrompt tool_name arguments)
  | none => false

/-- Embedding of `ToolExecutor._error_result` (lines 136–144). -/
def error_result (tool_name : String) (error : String) (duration_ms : Nat) : ToolResult :=
  { success := false
    result := none
    error := some error
    tool_name := tool_name
    duration_ms := some duration_ms
    cancelled := none }

/-- The f-string `f"Unknown tool: 'tool_name'"` (with the name quoted). -/
def unknownToolMsg (tool_name : String) : String :=
  "Unknown tool: " ++ String.singleton squote ++ tool_name ++ String.singleton squote

/-- The cancellation dict returned at lines 63–69. -/
def cancelledResult (tool_name : String) : ToolResult :=
  { success := false
    result := none
    error := some "Action cancelled by user"
    tool_name := tool_name
    duration_ms := none
    cancelled := some true }

/-- Embedding of `ToolExecutor.execute` (lines 39–110).  Returns the result dict, the
    executor state after the call (its audit log may have grown), and
    whether the underlying capability implementation was invoked.
    `now` is the `start` timestamp and `dur` the measured duration. -/
def execute (ex : ToolExecutor) (tool_name : String)
    (arguments : List (String × String)) (user_id : String)
    (now dur : Nat) : ToolResult × ToolExecutor × Bool :=
  match lookupTool ex tool_name with
  | none => (error_result tool_name (unknownToolMsg tool_name) 0, ex, false)
  | some tool =>
      let runTool : ToolResult × ToolExecutor × Bool :=
        match tool arguments with
        | Except.ok r =>
            ({ success := true
               result := some r
               error := none
               tool_name := tool_name
               duration_ms := some dur
               cancelled := none },
             { ex with audit_log := ex.audit_log ++
                 [⟨tool_name, arguments, user_id, true, none, dur, now⟩] },
             true)
        | Except.error e =>
            (error_result tool_name e dur,
             { ex with audit_log := ex.audit_log ++
                 [⟨tool_name, arguments, user_id, false, some e, dur, now⟩] },
             true)
      if ex.confirm_before_action && requires_confirmation ex tool_name then
        if request_confirmation ex tool_name arguments then runTool
        else (cancelledResult tool_name, ex, false)
      else runTool

/-- Python `l[s:]` — slice from a possibly negative start index. -/
def pySliceFrom (l : List α) (s : Int) : List α :=
  if s < 0 then l.drop (l.length - (-s).toNat)
  else l.drop s.toNat

/-- Embedding of `ToolExecutor.get_audit_log` (lines 132–134): `self.audit_log[-limit:]`. -/
def get_audit_log (log : List AuditEntry) (limit : Int) : List AuditEntry :=
  pySliceFrom log (-limit)

/-! ### Reasoning Loop (src/agent.py)

The completion backend is external; per the spec it returns text, and is
modelled as a function from the completion-call index to the raw response
string.  The gateway interaction inside the loop body (lines 186–210:
executing one requested call and appending the call and its result to the
transcript as two entries) is abstracted as a `handle` parameter returning
the appended entries and the `actions_taken` summary string. -/

/-- A transcript entry (the `Message` dataclass, timestamps omitted). -/
structure Message where
  role : String
  content : String
  metadata : List (String × String)
deriving Repr, DecidableEq

/-- `MAXAgent.MAX_ITERATIONS` (line 58). -/
def MAX_ITERATIONS : Nat := 15

/-- `MAXAgent.COMPACTION_THRESHOLD` (line 59); Python floats are modelled
    as exact rationals. -/
def COMPACTION_THRESHOLD : Rat := 85 / 100

/-- The fixed apology synthesized at line 213. -/
def APOLOGY : String := "I ran into trouble completing that task. Please try again."

/-- Outcome of the ReAct while-loop: the final response (if any), an
    uncaught exception (if any), the number of completion calls made, and
    the transcript and `actions_taken` accumulated so far. -/
structure LoopOut where
  final : Option String
  exc : Option PyExc
  llmCalls : Nat
  history : List Message
  actions : List String
deriving Inhabited

/-- The `for tool_call in tool_calls` body (lines 186–210).  Each element is
    read with `tool_call.get("name")` and `tool_call.get("arguments", {})`;
    `.get` on a non-dict element raises `AttributeError` (modelled by the
    `none` outcome, which also carries the state accumulated so far). -/
def runCalls (handle : PyJson → PyJson → List Message × String) :
    List PyJson → List Message → List String →
    Option (List Message × List String) × List Message × List String
  | [], hist, acts => (some (hist, acts), hist, acts)
  | tc :: rest, hist, acts =>
      match tc with
      | PyJson.obj fs =>
          let name := dictGetD fs "name" PyJson.null
          let args := dictGetD fs "arguments" (PyJson.obj [])
          let p := handle name args
          runCalls handle rest (hist ++ p.1) (acts ++ [p.2])
      | _ => (none, hist, acts)

/-- The `while iterations < self.MAX_ITERATIONS` loop (lines 170–210),
    recursing on the remaining iteration budget.  `calls` counts the
    completion calls made so far (the loop makes exactly one per
    iteration). -/
def reactLoopAux (llm : Nat → String) (handle : PyJson → PyJson → List Message × String) :
    Nat → Nat → List Message → List String → LoopOut
  | 0, calls, hist, acts => ⟨none, none, calls, hist, acts⟩
  | Nat.succ fuel, calls, hist, acts =>
      match extract_tool_calls (some (llm calls)) with
      | Except.error e => ⟨none, some e, calls + 1, hist, acts⟩
      | Except.ok v =>
          if pyTruthy v then
            match v with
            | PyJson.arr xs =>
                match runCalls handle xs hist acts with
                | (some (hist2, acts2), _, _) =>
                    reactLoopAux llm handle fuel (calls + 1) hist2 acts2
                | (none, hist2, acts2) =>
                    ⟨none, some PyExc.attributeError, calls + 1, hist2, acts2⟩
            | PyJson.str _ => ⟨none, some PyExc.attributeError, calls + 1, hist, acts⟩
            | PyJson.obj _ => ⟨none, some PyExc.attributeError, calls + 1, hist, acts⟩
            | _ => ⟨none, some PyExc.typeError, calls + 1, hist, acts⟩
          else ⟨some (llm calls), none, calls + 1, hist, acts⟩

/-- The ReAct loop of `MAXAgent.process_message` (lines 165–214) together
    with the `if not final_response` fallback: an empty or missing final
    response is replaced by the fixed apology; an uncaught exception
    propagates out of `process_message`. -/
def process_message_react (llm : Nat → String)
    (handle : PyJson → PyJson → List Message × String)
    (hist : List Message) : Except PyExc String × LoopOut :=
  let out := reactLoopAux llm handle MAX_ITERATIONS 0 hist []
  (match out.exc, out.final with
   | some e, _ => Except.error e
   | none, some s => if s = "" then Except.ok APOLOGY else Except.ok s
   | none, none => Except.ok APOLOGY,
   out)

/-- Decidable test that a raw completion response requests at least one
    capability call whose entries are well-formed dicts. -/
def requestsCalls (s : String) : Bool :=
  match extract_tool_calls (some s) with
  | Except.ok (PyJson.arr (tc :: tcs)) =>
      (tc :: tcs).all (fun t =>
        match t with
        | PyJson.obj _ => true
        | _ => false)
  | _ => false

/-- Embedding of `MAXAgent._should_compact` (lines 290–302): character count
    divided by 4 estimates tokens; compact above 85% of the budget. -/
def should_compact (max_context_tokens : Nat) (history : List Message) : Bool :=
  let total_chars : Nat := (history.map (fun m => m.content.length)).sum
  decide ((total_chars : Rat) / 4 / (max_context_tokens : Rat) > COMPACTION_THRESHOLD)

/-- The summarization prompt built at lines 317–321. -/
def summaryPromptText (old : List Message) : String :=
  "Summarize the following conversation history concisely, " ++
  "preserving all key facts, decisions, and outcomes:\n\n" ++
  String.intercalate "\n" (old.map (fun m => m.role ++ ": " ++ m.content))

/-- Embedding of `MAXAgent._compact_context` (lines 304–336).  The
    single-turn summarization backend is the `summarize` parameter.
    Returns the new transcript and the `memory.store` request issued
    (content, user_id, tags), if any. -/
def compact_context (summarize : String → String) (user_id : String)
    (history : List Message) :
    List Message × Option (String × String × List String) :=
  if history.length ≤ 10 then (history, none)
  else
    let old := history.take (history.length - 10)
    let recent := history.drop (history.length - 10)
    let summary := summarize (summaryPromptText old)
    ([⟨"assistant", "[Context summary]: " ++ summary, []⟩] ++ recent,
     some (summary, user_id, ["context_summary"]))

/-! ### Helper lemmas -/

theorem perm_insertBy (le : α → α → Bool) (a : α) :
    ∀ l : List α, List.Perm (insertBy le a l) (a :: l)
  | [] => List.Perm.refl _
  | b :: bs => by
      unfold insertBy
      by_cases h : le a b
      · rw [if_pos h]
      · rw [if_neg h]
        exact ((perm_insertBy le a bs).cons b).trans (List.Perm.swap a b bs)

theorem perm_sortBy (le : α → α → Bool) : ∀ l : List α, List.Perm (sortBy le l) l
  | [] => List.Perm.refl _
  | a :: as => (perm_insertBy le a (sortBy le as)).trans ((perm_sortBy le as).cons a)

theorem mem_sortBy {le : α → α → Bool} {x : α} {l : List α} :
    x ∈ sortBy le l ↔ x ∈ l :=
  (perm_sortBy le l).mem_iff

theorem nodup_map_sortBy (f : α → β) (le : α → α → Bool) (l : List α)
    (h : (l.map f).Nodup) : ((sortBy le l).map f).Nodup :=
  (((perm_sortBy le l).map f).nodup_iff).mpr h

theorem searchRows_subset (ftsMatch : String → String → Bool) (rank : Memory → Nat)
    (db : List Memory) (query user_id : String) (limit : Nat) :
    ∀ m ∈ searchRows ftsMatch rank db query user_id limit,
      m ∈ db ∧ (ftsMatch query m.content && m.user_id == user_id) = true := by
  intro m hm
  unfold searchRows at hm
  exact List.mem_filter.mp (mem_sortBy.mp (List.take_subset _ _ hm))

theorem searchTagged_subset (ftsMatch : String → String → Bool) (rank : Memory → Nat)
    (db : List Memory) (query user_id : String) (limit : Nat) (tags : List String) :
    ∀ m ∈ searchTagged ftsMatch rank db query user_id limit tags,
      m ∈ db ∧ m.user_id = user_id := by
  intro m hm
  unfold searchTagged at hm
  have hrows : m ∈ searchRows ftsMatch rank db query user_id limit := by
    by_cases ht : tags.isEmpty
    · rw [if_pos ht] at hm; exact hm
    · rw [if_neg ht] at hm; exact (List.mem_filter.mp hm).1
  have h := searchRows_subset ftsMatch rank db query user_id limit m hrows
  exact ⟨h.1, eq_of_beq ((Bool.and_eq_true _ _).mp h.2).2⟩

theorem nodup_ids_searchTagged (ftsMatch : String → String → Bool) (rank : Memory → Nat)
    (db : List Memory) (query user_id : String) (limit : Nat) (tags : List String)
    (h : (db.map Memory.id).Nodup) :
    ((searchTagged ftsMatch rank db query user_id limit tags).map Memory.id).Nodup := by
  have h1 : ((db.filter
      (fun m => ftsMatch query m.content && m.user_id == user_id)).map Memory.id).Nodup :=
    List.Nodup.sublist (List.Sublist.map Memory.id (List.filter_sublist db)) h
  have h2 := nodup_map_sortBy Memory.id
    (fun a b => decide (rank a ≤ rank b)) _ h1
  have h3 : ((searchRows ftsMatch rank db query user_id limit).map Memory.id).Nodup :=
    List.Nodup.sublist (List.Sublist.map Memory.id (List.take_sublist _ _)) h2
  unfold searchTagged
  by_cases ht : tags.isEmpty
  · rw [if_pos ht]; exact h3
  · rw [if_neg ht]
    exact List.Nodup.sublist (List.Sublist.map Memory.id (List.filter_sublist _)) h3

theorem find_eq_of_nodup_ids :
    ∀ {db : List Memory} {m : Memory}, (db.map Memory.id).Nodup → m ∈ db →
      db.find? (fun r => r.id == m.id) = some m := by
  intro db
  induction db with
  | nil => intro m _ hm; cases hm
  | cons r rest ih =>
      intro m h hm
      rw [List.map_cons, List.nodup_cons] at h
      rcases List.mem_cons.mp hm with rfl | hmem
      · rw [List.find?_cons_of_pos _ (by simp)]
      · have hid : (r.id == m.id) = false := by
          refine beq_eq_false_iff_ne.mpr (fun he => h.1 ?_)
          exact he ▸ List.mem_map_of_mem Memory.id hmem
        rw [List.find?_cons_of_neg _ (by simp [hid])]
        exact ih h.2 hmem

theorem touchRec_id (now : Nat) (r : Memory) : (touchRec now r).id = r.id := rfl

theorem touchOne_find_ne (now : Nat) {i j : Nat} (h : i ≠ j) :
    ∀ db : List Memory,
      (touchOne now i db).find? (fun r => r.id == j) =
        db.find? (fun r => r.id == j)
  | [] => rfl
  | r :: rest => by
      unfold touchOne
      rw [List.map_cons]
      by_cases hri : r.id = i
      · have hhead : (if (r.id == i) = true then touchRec now r else r) = touchRec now r := by
          simp [hri]
        rw [hhead]
        have hj : ((touchRec now r).id == j) = false := by
          simp [touchRec_id, hri, h]
        rw [List.find?_cons_of_neg _ (by simp [hj]),
          List.find?_cons_of_neg _ (by simp [hri, h])]
        exact touchOne_find_ne now h rest
      · have hhead : (if (r.id == i) = true then touchRec now r else r) = r := by
          simp [hri]
        rw [hhead]
        by_cases hrj : r.id = j
        · rw [List.find?_cons_of_pos _ (by simp [hrj]),
            List.find?_cons_of_pos _ (by simp [hrj])]
        · rw [List.find?_cons_of_neg _ (by simp [hrj]),
            List.find?_cons_of_neg _ (by simp [hrj])]
          exact touchOne_find_ne now h rest

theorem touchOne_find_eq (now : Nat) (i : Nat) :
    ∀ db : List Memory,
      (touchOne now i db).find? (fun r => r.id == i) =
        (db.find? (fun r => r.id == i)).map (touchRec now)
  | [] => rfl
  | r :: rest => by
      unfold touchOne
      rw [List.map_cons]
      by_cases hri : r.id = i
      · have hhead : (if (r.id == i) = true then touchRec now r else r) = touchRec now r := by
          simp [hri]
        rw [hhead]
        rw [List.find?_cons_of_pos _ (by simp [touchRec_id, hri]),
          List.find?_cons_of_pos _ (by simp [hri])]
        rfl
      · have hhead : (if (r.id == i) = true then touchRec now r else r) = r := by
          simp [hri]
        rw [hhead]
        rw [List.find?_cons_of_neg _ (by simp [hri]),
          List.find?_cons_of_neg _ (by simp [hri])]
        exact touchOne_find_eq now i rest

theorem touchAll_find_notmem (now : Nat) {j : Nat} :
    ∀ (ms : List Memory) (db : List Memory), j ∉ ms.map Memory.id →
      (touchAll now ms db).find? (fun r => r.id == j) =
        db.find? (fun r => r.id == j)
  | [], _, _ => rfl
  | m :: rest, db, h => by
      rw [List.map_cons] at h
      have hmj : m.id ≠ j := fun he => h (he ▸ List.mem_cons_self _ _)
      unfold touchAll
      rw [touchAll_find_notmem now rest _ (fun hc => h (List.mem_cons_of_mem _ hc)),
        touchOne_find_ne now hmj]

theorem touchAll_find_mem (now : Nat) :
    ∀ (ms : List Memory) (db : List Memory) (m : Memory),
      (ms.map Memory.id).Nodup → m ∈ ms →
      (touchAll now ms db).find? (fun r => r.id == m.id) =
        (db.find? (fun r => r.id == m.id)).map (touchRec now)
  | [], _, _, _, hm => absurd hm (List.not_mem_nil _)
  | a :: rest, db, m, hnd, hm => by
      rw [List.map_cons, List.nodup_cons] at hnd
      rcases List.mem_cons.mp hm with rfl | hmem
      · unfold touchAll
        rw [touchAll_find_notmem now rest _ hnd.1, touchOne_find_eq]
      · have hne : a.id ≠ m.id := fun he =>
          hnd.1 (he ▸ List.mem_map_of_mem Memory.id hmem)
        unfold touchAll
        rw [touchAll_find_mem now rest _ m hnd.2 hmem, touchOne_find_ne now hne]

/-! ### Claim C7 -/

/-- C7: for every user id and every store state, every Memory record
    returned by `search` (either path) or `get_all` has a `user_id` equal
    to the `user_id` argument of the call; no record stored under one
    user id is ever returned for a different user id. -/
theorem search_get_all_user_isolation
    (ftsMatch : String → String → Bool) (rank : Memory → Nat)
    (db : List Memory) (now : Nat) (query user_id : String) (limit : Nat)
    (tags : List String) :
    (∀ m ∈ (search ftsMatch rank db now query user_id limit tags).1,
        m.user_id = user_id) ∧
    (∀ m ∈ get_all db user_id, m.user_id = user_id) := by
  constructor
  · intro m hm
    by_cases hq : (pyStrip query).length < 3
    · have hm' : m ∈ get_recent db user_id limit := by
        simpa [search, hq] using hm
      have h := List.mem_filter.mp (mem_sortBy.mp (List.take_subset _ _ hm'))
      exact eq_of_beq h.2
    · have hm' : m ∈ searchTagged ftsMatch rank db query user_id limit tags := by
        simpa [search, hq] using hm
      exact (searchTagged_subset ftsMatch rank db query user_id limit tags m hm').2
  · intro m hm
    have h := List.mem_filter.mp (mem_sortBy.mp hm)
    exact eq_of_beq h.2

def isolationDb : List Memory :=
  [⟨1, "abc", "u", [], 0, 0, 0⟩]

/-- Witness for C7 at a concrete store and a concrete returned record. -/
theorem search_get_all_user_isolation_witness :
    (⟨1, "abc", "u", [], 0, 0, 0⟩ : Memory).user_id = "u" :=
  (search_get_all_user_isolation (fun _ _ => false) (fun _ => 0) isolationDb
      3 "x" "u" 5 []).1
    ⟨1, "abc", "u", [], 0, 0, 0⟩ (by decide)

/-! ### Claim C1 -/

def fallbackDb : List Memory :=
  [⟨1, "hello world", "u", [], 0, 0, 0⟩]

/-- C1 is false on the code: a `search` call that takes the short-query
    recency fallback (`"hi"` has fewer than 3 trimmed characters) returns
    a record whose `access_count` is not incremented and whose
    `accessed_at` is not set to the call time (5): `_get_recent` never
    calls `_touch`, so the store is returned unchanged. -/
theorem search_fallback_no_touch_cex :
    (search (fun _ _ => false) (fun _ => 0) fallbackDb 5 "hi" "u" 5 []).1 =
      [⟨1, "hello world", "u", [], 0, 0, 0⟩] ∧
    (search (fun _ _ => false) (fun _ => 0) fallbackDb 5 "hi" "u" 5 []).2 =
      fallbackDb ∧
    (search (fun _ _ => false) (fun _ => 0) fallbackDb 5 "hi" "u" 5 []).2 ≠
      [⟨1, "hello world", "u", [], 0, 5, 1⟩] := by
  refine ⟨by decide, by decide, by decide⟩

/-- C1 (amended): on the full-text-search path every record returned by
    `search` has, in the store, its `access_count` incremented by exactly 1
    and its `accessed_at` updated to the call time before the call returns;
    the short-query recency fallback path returns records without updating
    any access stats. -/
theorem search_touch_fts_only (ftsMatch : String → String → Bool)
    (rank : Memory → Nat) (db : List Memory) (now : Nat)
    (query user_id : String) (limit : Nat) (tags : List String)
    (hnodup : (db.map Memory.id).Nodup) :
    ((pyStrip query).length < 3 →
      (search ftsMatch rank db now query user_id limit tags).2 = db) ∧
    (¬ (pyStrip query).length < 3 →
      ∀ m ∈ (search ftsMatch rank db now query user_id limit tags).1,
        (search ftsMatch rank db now query user_id limit tags).2.find?
            (fun r => r.id == m.id) =
          some { m with accessed_at := now, access_count := m.access_count + 1 }) := by
  constructor
  · intro hq
    simp [search, hq]
  · intro hq m hm
    have hmem : m ∈ searchTagged ftsMatch rank db query user_id limit tags := by
      simpa [search, hq] using hm
    have hres : (search ftsMatch rank db now query user_id limit tags).2 =
        touchAll now (searchTagged ftsMatch rank db query user_id limit tags) db := by
      simp [search, hq]
    rw [hres]
    have hnd := nodup_ids_searchTagged ftsMatch rank db query user_id limit tags hnodup
    have hdb := (searchTagged_subset ftsMatch rank db query user_id limit tags m hmem).1
    rw [touchAll_find_mem now _ db m hnd hmem, find_eq_of_nodup_ids hnodup hdb]
    rfl

def ftsDb : List Memory :=
  [⟨1, "hello world", "u", [], 0, 0, 0⟩]

def splitWordsAux : List Char → List Char → List String
  | [], acc => [String.mk acc.reverse]
  | c :: rest, acc =>
      if c = ' ' then String.mk acc.reverse :: splitWordsAux rest []
      else splitWordsAux rest (c :: acc)

/-- Space-separated words of a string. -/
def splitWords (s : String) : List String :=
  splitWordsAux s.toList []

/-- Word-level containment standing in for the external FTS5 `MATCH`. -/
def wordMatch (query content : String) : Bool :=
  (splitWords content).contains query

/-- Witness for C1 (amended): both branches applied at concrete stores. -/
theorem search_touch_fts_only_witness :
    (search wordMatch Memory.id fallbackDb 5 "hi" "u" 5 []).2 = fallbackDb ∧
    (search wordMatch Memory.id ftsDb 7 "hello" "u" 5 []).2.find?
        (fun r => r.id == (1 : Nat)) =
      some ⟨1, "hello world", "u", [], 0, 7, 1⟩ :=
  ⟨(search_touch_fts_only wordMatch Memory.id fallbackDb 5 "hi" "u" 5 []
      (by decide)).1 (by decide),
   (search_touch_fts_only wordMatch Memory.id ftsDb 7 "hello" "u" 5 []
      (by decide)).2 (by decide) ⟨1, "hello world", "u", [], 0, 0, 0⟩ (by decide)⟩

/-! ### Claim C10 -/

def taggedDb : List Memory :=
  [⟨1, "alpha query", "u", [], 0, 0, 0⟩,
   ⟨2, "beta query", "u", ["t"], 0, 0, 0⟩]

/-- C10: with a full-text query of at least 3 trimmed characters and a
    non-empty `tags` argument, the `LIMIT` is applied to the FTS results
    before the tag filter, so `search` can return fewer than `limit`
    records (here 0 < 1) even though the store holds at least `limit`
    records matching the query and sharing a tag (here exactly 1). -/
theorem search_limit_before_tag_filter :
    (search wordMatch Memory.id taggedDb 9 "query" "u" 1 ["t"]).1.length < 1 ∧
    1 ≤ (taggedDb.filter (fun m =>
        wordMatch "query" m.content && m.user_id == "u" &&
          (["t"].any (fun t => m.tags.contains t)))).length := by
  decide

/-! ### Claim C2 -/

/-- A gateway with one confirmation-requiring capability, confirmation
    enabled, and no confirmation callback wired. -/
def exNoCallback : ToolExecutor :=
  { tools := [("delete_file", fun _ => Except.ok "deleted")]
    confirm_required := ["delete_file"]
    confirm_before_action := true
    confirm_callback := none
    audit_log := [] }

/-- C2 is false as stated: invoking a confirmation-requiring capability
    with confirmation enabled and no confirmation function wired yields a
    result whose `cancelled` field is `True`, not `False` (the denial path
    at lines 62–69 always sets `cancelled: True`).  The `success:false` and
    never-invoked parts do hold. -/
theorem deny_no_callback_cancelled_true_cex :
    (execute exNoCallback "delete_file" [] "default" 0 0).1.cancelled = some true ∧
    (execute exNoCallback "delete_file" [] "default" 0 0).1.cancelled ≠ some false ∧
    (execute exNoCallback "delete_file" [] "default" 0 0).1.success = false ∧
    (execute exNoCallback "delete_file" [] "default" 0 0).2.2 = false := by
  refine ⟨rfl, by decide, rfl, rfl⟩

/-- C2 (amended): for every capability whose descriptor requires
    confirmation, invoking it through the gateway with confirmation
    enabled but no confirmation function wired returns the denial result
    `success:false, cancelled:true` ("Action cancelled by user") and never
    invokes the underlying capability implementation. -/
theorem deny_without_callback (ex : ToolExecutor) (tool_name : String)
    (arguments : List (String × String)) (user_id : String) (now dur : Nat)
    (t : List (String × String) → Except String String)
    (hlookup : lookupTool ex tool_name = some t)
    (hreq : requires_confirmation ex tool_name = true)
    (hconf : ex.confirm_before_action = true)
    (hcb : ex.confirm_callback = none) :
    execute ex tool_name arguments user_id now dur =
      (cancelledResult tool_name, ex, false) := by
  unfold execute
  rw [hlookup]
  simp [hreq, hconf, request_confirmation, hcb]

/-- Witness for C2 (amended) at the concrete gateway above. -/
theorem deny_without_callback_witness :
    execute exNoCallback "delete_file" [] "default" 0 0 =
      (cancelledResult "delete_file", exNoCallback, false) :=
  deny_without_callback exNoCallback "delete_file" [] "default" 0 0
    (fun _ => Except.ok "deleted") rfl rfl rfl rfl

/-! ### Claim C6 -/

/-- A gateway whose wired confirmation callback always denies. -/
def exDenyCallback : ToolExecutor :=
  { tools := [("delete_file", fun _ => Except.ok "deleted")]
    confirm_required := ["delete_file"]
    confirm_before_action := true
    confirm_callback := some (fun _ => false)
    audit_log := [] }

/-- C6: for every capability requiring confirmation, if the wired
    confirmation function returns false the gateway returns exactly the
    cancellation dict `success:false, cancelled:true,
    error:"Action cancelled by user"` and the underlying capability
    implementation is never invoked (the audit log is also untouched). -/
theorem cancel_on_denial (ex : ToolExecutor) (tool_name : String)
    (arguments : List (String × String)) (user_id : String) (now dur : Nat)
    (t : List (String × String) → Except String String) (cb : String → Bool)
    (hlookup : lookupTool ex tool_name = some t)
    (hreq : requires_confirmation ex tool_name = true)
    (hconf : ex.confirm_before_action = true)
    (hcb : ex.confirm_callback = some cb)
    (hdeny : cb (confirmPrompt tool_name arguments) = false) :
    execute ex tool_name arguments user_id now dur =
      (cancelledResult tool_name, ex, false) := by
  unfold execute
  rw [hlookup]
  simp [hreq, hconf, request_confirmation, hcb, hdeny]

/-- Witness for C6 at the concrete gateway above. -/
theorem cancel_on_denial_witness :
    execute exDenyCallback "delete_file" [] "default" 0 0 =
      (cancelledResult "delete_file", exDenyCallback, false) :=
  cancel_on_denial exDenyCallback "delete_file" [] "default" 0 0
    (fun _ => Except.ok "deleted") (fun _ => false) rfl rfl rfl rfl rfl

/-! ### Claim C3 -/

/-- C3: `execute` always returns a result dict.  When the name is not
    registered it returns `success:false` with the unknown-capability error
    message, without invoking any capability and without touching state;
    and when the capability implementation raises (and the call is not
    stopped by the confirmation gate), the exception is converted into a
    `success:false` result instead of propagating — `execute` is a total
    function in this embedding. -/
theorem execute_never_raises (ex : ToolExecutor) (tool_name : String)
    (arguments : List (String × String)) (user_id : String) (now dur : Nat) :
    (lookupTool ex tool_name = none →
      execute ex tool_name arguments user_id now dur =
        (error_result tool_name (unknownToolMsg tool_name) 0, ex, false)) ∧
    (∀ t e, lookupTool ex tool_name = some t →
      t arguments = Except.error e →
      ((ex.confirm_before_action && requires_confirmation ex tool_name) = true →
        request_confirmation ex tool_name arguments = true) →
      (execute ex tool_name arguments user_id now dur).1 =
        error_result tool_name e dur ∧
      (execute ex tool_name arguments user_id now dur).2.2 = true) := by
  constructor
  · intro hnone
    unfold execute
    rw [hnone]
  · intro t e hsome hraise hgate
    unfold execute
    rw [hsome]
    by_cases hc : (ex.confirm_before_action && requires_confirmation ex tool_name) = true
    · simp [hc, hgate hc, hraise]
    · simp [hc, hraise]

/-- A gateway with a capability whose implementation raises. -/
def exRaising : ToolExecutor :=
  { tools := [("boom", fun _ => Except.error "kaput")]
    confirm_required := []
    confirm_before_action := true
    confirm_callback := none
    audit_log := [] }

/-- Witness for C3: unknown name and raising capability, both concrete. -/
theorem execute_never_raises_witness :
    execute exRaising "nope" [] "default" 0 0 =
      (error_result "nope" (unknownToolMsg "nope") 0, exRaising, false) ∧
    (execute exRaising "boom" [] "default" 3 7).1 = error_result "boom" "kaput" 7 :=
  ⟨(execute_never_raises exRaising "nope" [] "default" 0 0).1 rfl,
   ((execute_never_raises exRaising "boom" [] "default" 3 7).2
      (fun _ => Except.error "kaput") "kaput" rfl rfl
      (fun h => absurd h (by decide))).1⟩

/-! ### Claim C9 -/

/-- C9: `get_audit_log` with `limit = 0` returns the entire audit log,
    because the implementation slices with `[-limit:]` and `[-0:]` is
    `[0:]`, the whole list — not an empty list of zero most-recent
    entries. -/
theorem get_audit_log_zero_returns_all (log : List AuditEntry) :
    get_audit_log log 0 = log := by
  unfold get_audit_log pySliceFrom
  simp

/-! ### Loop lemmas for C4 -/

theorem reactLoopAux_calls_le (llm : Nat → String)
    (handle : PyJson → PyJson → List Message × String) (fuel : Nat) :
    ∀ (calls : Nat) (hist : List Message) (acts : List String),
      (reactLoopAux llm handle fuel calls hist acts).llmCalls ≤ calls + fuel := by
  induction fuel with
  | zero => intro calls hist acts; exact Nat.le_refl _
  | succ fuel ih =>
      intro calls hist acts
      unfold reactLoopAux
      cases hx : extract_tool_calls (some (llm calls)) with
      | error e =>
          show calls + 1 ≤ calls + (fuel + 1)
          omega
      | ok v =>
          dsimp only
          by_cases ht : pyTruthy v = true
          · rw [if_pos ht]
            cases v with
            | arr xs =>
                dsimp only
                rcases hr : runCalls handle xs hist acts with ⟨a, rh, ra⟩
                cases a with
                | some p =>
                    rcases p with ⟨h2, a2⟩
                    dsimp only
                    have := ih (calls + 1) h2 a2
                    omega
                | none =>
                    dsimp only
                    omega
            | null => dsimp only; omega
            | bool b => dsimp only; omega
            | int n => dsimp only; omega
            | str s => dsimp only; omega
            | obj fs => dsimp only; omega
          · rw [if_neg ht]
            dsimp only
            omega

theorem runCalls_all_obj (handle : PyJson → PyJson → List Message × String) :
    ∀ (xs : List PyJson) (hist : List Message) (acts : List String),
      (xs.all (fun t =>
        match t with
        | PyJson.obj _ => true
        | _ => false)) = true →
      ∃ h2 a2, runCalls handle xs hist acts = (some (h2, a2), h2, a2)
  | [], hist, acts, _ => ⟨hist, acts, rfl⟩
  | tc :: rest, hist, acts, h => by
      rw [List.all_cons, Bool.and_eq_true] at h
      cases tc with
      | obj fs =>
          unfold runCalls
          exact runCalls_all_obj handle rest _ _ h.2
      | null => exact absurd h.1 (by simp)
      | bool b => exact absurd h.1 (by simp)
      | int n => exact absurd h.1 (by simp)
      | str s => exact absurd h.1 (by simp)
      | arr ys => exact absurd h.1 (by simp)

theorem reactLoopAux_all_calls (llm : Nat → String)
    (handle : PyJson → PyJson → List Message × String)
    (H : ∀ n, requestsCalls (llm n) = true) (fuel : Nat) :
    ∀ (calls : Nat) (hist : List Message) (acts : List String),
      (reactLoopAux llm handle fuel calls hist acts).final = none ∧
      (reactLoopAux llm handle fuel calls hist acts).exc = none ∧
      (reactLoopAux llm handle fuel calls hist acts).llmCalls = calls + fuel := by
  induction fuel with
  | zero => intro calls hist acts; exact ⟨rfl, rfl, rfl⟩
  | succ fuel ih =>
      intro calls hist acts
      have h := H calls
      unfold requestsCalls at h
      split at h
      case _ tc tcs heq =>
        obtain ⟨h2, a2, hrun⟩ := runCalls_all_obj handle (tc :: tcs) hist acts h
        unfold reactLoopAux
        rw [heq]
        have htr : pyTruthy (PyJson.arr (tc :: tcs)) = true := by simp [pyTruthy]
        simp only [htr, if_true, hrun]
        have := ih (calls + 1) h2 a2
        refine ⟨this.1, this.2.1, ?_⟩
        rw [this.2.2]
        omega
      case _ => exact absurd h (by simp)

/-! ### Claim C4 -/

/-- C4: for every backend and transcript, the ReAct loop of
    `process_message` makes at most `MAX_ITERATIONS = 15` completion calls;
    and against a backend that requests further capability calls on every
    response, it makes exactly 15, terminates, raises nothing, and the
    returned text is the fixed apology message. -/
theorem process_message_iteration_cap (llm : Nat → String)
    (handle : PyJson → PyJson → List Message × String) (hist : List Message) :
    (process_message_react llm handle hist).2.llmCalls ≤ MAX_ITERATIONS ∧
    ((∀ n, requestsCalls (llm n) = true) →
      (process_message_react llm handle hist).1 = Except.ok APOLOGY ∧
      (process_message_react llm handle hist).2.llmCalls = MAX_ITERATIONS) := by
  constructor
  · have h := reactLoopAux_calls_le llm handle MAX_ITERATIONS 0 hist []
    simpa [process_message_react] using h
  · intro H
    obtain ⟨hf, he, hc⟩ := reactLoopAux_all_calls llm handle H MAX_ITERATIONS 0 hist []
    constructor
    · simp [process_message_react, hf, he]
    · simpa [process_message_react] using hc

/-- A completion response requesting one capability call. -/
def toolCallJson : String :=
  "\x7b\"tool_calls\": [\x7b\"name\": \"t\", \"arguments\": \x7b\x7d\x7d]\x7d"

/-- Witness for C4: an always-tool-calling backend yields the apology after
    exactly 15 completion calls. -/
theorem process_message_iteration_cap_witness :
    (process_message_react (fun _ => toolCallJson) (fun _ _ => ([], "")) []).1 =
      Except.ok APOLOGY ∧
    (process_message_react (fun _ => toolCallJson) (fun _ _ => ([], "")) []).2.llmCalls =
      MAX_ITERATIONS :=
  (process_message_iteration_cap (fun _ => toolCallJson) (fun _ _ => ([], "")) []).2
    (fun _ => by rfl)

/-! ### Claim C5 -/

/-- C5: compaction never modifies a transcript with 10 or fewer entries;
    on a longer transcript it keeps the 10 most recent entries verbatim
    and in order as a suffix, replaces all older entries by exactly one
    summary entry placed before them, and issues a Memory Store request
    for the summary text tagged `context_summary`. -/
theorem compaction_preserves_recent (summarize : String → String)
    (user_id : String) (history : List Message) :
    (history.length ≤ 10 →
      compact_context summarize user_id history = (history, none)) ∧
    (10 < history.length →
      (compact_context summarize user_id history).1 =
        Message.mk "assistant"
          ("[Context summary]: " ++
            summarize (summaryPromptText (history.take (history.length - 10)))) [] ::
          history.drop (history.length - 10) ∧
      (history.drop (history.length - 10)).length = 10 ∧
      history = history.take (history.length - 10) ++
        history.drop (history.length - 10) ∧
      (compact_context summarize user_id history).2 =
        some (summarize (summaryPromptText (history.take (history.length - 10))),
          user_id, ["context_summary"])) := by
  constructor
  · intro h
    simp [compact_context, h]
  · intro h
    have hn : ¬ history.length ≤ 10 := by omega
    refine ⟨by simp [compact_context, hn], ?_,
      (List.take_append_drop _ _).symm, by simp [compact_context, hn]⟩
    rw [List.length_drop]
    omega

/-- Witness for C5: a 10-entry transcript is untouched; an 11-entry one
    stores a `context_summary`-tagged record. -/
theorem compaction_preserves_recent_witness :
    compact_context (fun _ => "S") "u" (List.replicate 10 ⟨"user", "hi", []⟩) =
      (List.replicate 10 ⟨"user", "hi", []⟩, none) ∧
    (compact_context (fun _ => "S") "u" (List.replicate 11 ⟨"user", "hi", []⟩)).2 =
      some ("S", "u", ["context_summary"]) :=
  ⟨(compaction_preserves_recent (fun _ => "S") "u"
      (List.replicate 10 ⟨"user", "hi", []⟩)).1 (by decide),
   ((compaction_preserves_recent (fun _ => "S") "u"
      (List.replicate 11 ⟨"user", "hi", []⟩)).2 (by decide)).2.2.2⟩

/-! ### Claim C8 -/

/-- C8 is false as stated for the absent (`None`) response:
    `json.loads(None)` raises `TypeError`, which the
    `except (json.JSONDecodeError, AttributeError)` clause of
    `_extract_tool_calls` does not catch, so the extraction step raises
    instead of returning no requests. -/
theorem extract_none_raises_cex :
    extract_tool_calls none = Except.error PyExc.typeError ∧
    extract_tool_calls none ≠ Except.ok (PyJson.arr []) :=
  ⟨rfl, fun h => Except.noConfusion h⟩

/-- C8 (amended): for every string completion response the tool-call
    extraction returns without raising; when the string is not valid JSON,
    or parses to a non-object, it returns no capability-call requests (the
    empty list), so the raw response is treated as the final answer of the
    turn.  For the absent (`None`) response, however, the extraction raises
    `TypeError` instead. -/
theorem extract_malformed_returns_empty (raw : Option String) :
    (∀ s, raw = some s → ∃ v, extract_tool_calls raw = Except.ok v) ∧
    (∀ s, raw = some s → jsonParse s = none →
      extract_tool_calls raw = Except.ok (PyJson.arr [])) ∧
    (∀ s v, raw = some s → jsonParse s = some v →
      (∀ fs, v ≠ PyJson.obj fs) →
      extract_tool_calls raw = Except.ok (PyJson.arr [])) ∧
    (raw = none → extract_tool_calls raw = Except.error PyExc.typeError) := by
  refine ⟨?_, ?_, ?_, ?_⟩
  · intro s hs
    subst hs
    simp only [extract_tool_calls, jsonLoads]
    cases h : jsonParse s with
    | none => exact ⟨PyJson.arr [], rfl⟩
    | some v =>
        cases v with
        | obj fs => exact ⟨dictGetD fs "tool_calls" (PyJson.arr []), rfl⟩
        | null => exact ⟨PyJson.arr [], rfl⟩
        | bool b => exact ⟨PyJson.arr [], rfl⟩
        | int n => exact ⟨PyJson.arr [], rfl⟩
        | str s2 => exact ⟨PyJson.arr [], rfl⟩
        | arr ys => exact ⟨PyJson.arr [], rfl⟩
  · intro s hs hparse
    subst hs
    simp [extract_tool_calls, jsonLoads, hparse]
  · intro s v hs hparse hobj
    subst hs
    cases v with
    | obj fs => exact absurd rfl (hobj fs)
    | null => simp [extract_tool_calls, jsonLoads, hparse]
    | bool b => simp [extract_tool_calls, jsonLoads, hparse]
    | int n => simp [extract_tool_calls, jsonLoads, hparse]
    | str s2 => simp [extract_tool_calls, jsonLoads, hparse]
    | arr ys => simp [extract_tool_calls, jsonLoads, hparse]
  · intro h
    subst h
    rfl

/-- Witness for C8 (amended) on a concrete non-JSON response. -/
theorem extract_malformed_returns_empty_witness :
    extract_tool_calls (some "MAX hit an error") = Except.ok (PyJson.arr []) :=
  (extract_malformed_returns_empty (some "MAX hit an error")).2.1
    "MAX hit an error" rfl rfl

end MAXAI
